import Mathlib

/-!
Verification of the `FileUpload` widget (`src/file-upload.tsx`).

The component's state is a list of `FileWithId` records plus a drag-over flag.
Effectful platform calls are made explicit:
* `generateId` (`Math.random().toString(36).substr(2, 9)`) and
  `URL.createObjectURL` are modelled by an `Oracle` providing the stream of
  values the two generators return, indexed by call count; the state tracks
  how many calls have been made so far.
* `URL.revokeObjectURL` calls performed by an operation are returned as an
  explicit list of released URLs.
-/

/-- The parts of a DOM `File` object the component reads: `name`, `size` and
the declared MIME `type`. -/
structure JSFile where
  name : String
  size : Nat
  type : String
deriving DecidableEq

/-- JS `file.type.startsWith("image/")`, expressed on the underlying
character lists. -/
def isImageType (f : JSFile) : Bool := "image/".data.isPrefixOf f.type.data

/-- `interface FileWithId` from the source: a generated `id`, the file handle,
and an optional object-URL preview handle. -/
structure FileWithId where
  id : String
  file : JSFile
  previewUrl : Option String
deriving DecidableEq

/-- Outcomes of the two generators: `ids k` is the value returned by the
`k`-th call of `generateId`, `urls k` the value returned by the `k`-th call of
`URL.createObjectURL`. -/
structure Oracle where
  ids : Nat → String
  urls : Nat → String

/-- Component state: the `files` list, the `isDragOver` flag, and the number
of generator calls made so far (bookkeeping for the oracle). -/
structure UploadState where
  files : List FileWithId
  isDragOver : Bool
  idCount : Nat
  urlCount : Nat
deriving DecidableEq

/-- The initial state of the mounted component: `useState` with `[]` and
`false`. -/
def initState : UploadState :=
  { files := [], isDragOver := false, idCount := 0, urlCount := 0 }

/-- One record of `handleFileSelect`'s `map` callback: a fresh id, the file,
and — when `file.type.startsWith("image/")` — a preview handle from
`URL.createObjectURL`. -/
def mkRecord (gen : Oracle) (k u : Nat) (f : JSFile) : FileWithId :=
  { id := gen.ids k
    file := f
    previewUrl := if isImageType f then some (gen.urls u) else none }

/-- The records built for a batch, threading the two generator call counters;
returns the new records together with the updated counters. -/
def buildRecords (gen : Oracle) : List JSFile → Nat → Nat → List FileWithId × Nat × Nat
  | [], k, u => ([], k, u)
  | f :: fs, k, u =>
      let r := mkRecord gen k u f
      let p := buildRecords gen fs (k + 1) (if isImageType f then u + 1 else u)
      (r :: p.1, p.2)

/-- `handleFileSelect`: a `null` selection is a no-op; otherwise the records
built from the batch are appended to the end of the current list
(`setFiles((prev) => [...prev, ...newFiles])`). -/
def handleFileSelect (gen : Oracle) (sel : Option (List JSFile)) (s : UploadState) :
    UploadState :=
  match sel with
  | none => s
  | some fs =>
      let p := buildRecords gen fs s.idCount s.urlCount
      { s with files := s.files ++ p.1, idCount := p.2.1, urlCount := p.2.2 }

/-- `removeFile(id)`: find the first record with matching id, revoke its
preview URL if it has one, and filter out every record with that id. Returns
the new state together with the list of revoked URLs. -/
def removeFile (x : String) (s : UploadState) : UploadState × List String :=
  let fileToRemove := s.files.find? fun f => f.id == x
  let released :=
    match fileToRemove with
    | some r =>
        match r.previewUrl with
        | some u => [u]
        | none => []
    | none => []
  ({ s with files := s.files.filter fun f => f.id != x }, released)

/-- The "Clear All" button: `onClick={() => setFiles([])}`. No
`URL.revokeObjectURL` call occurs, so the list of released URLs is empty. -/
def clearAll (s : UploadState) : UploadState × List String :=
  ({ s with files := [] }, [])

/-- `handleDragOver`: sets the visual flag. -/
def handleDragOver (s : UploadState) : UploadState :=
  { s with isDragOver := true }

/-- `handleDragLeave`: clears the visual flag. -/
def handleDragLeave (s : UploadState) : UploadState :=
  { s with isDragOver := false }

/-- `handleDrop`: clears the visual flag and forwards the dropped batch to
`handleFileSelect`. -/
def handleDrop (gen : Oracle) (sel : Option (List JSFile)) (s : UploadState) :
    UploadState :=
  handleFileSelect gen sel { s with isDragOver := false }

/-- The unit labels of `formatFileSize`: `const sizes = ["Bytes","KB","MB","GB"]`. -/
def sizes : List String := ["Bytes", "KB", "MB", "GB"]

/-- JavaScript indexing `sizes[i]`: out-of-bounds access yields `undefined`,
which string concatenation renders as the text `"undefined"`. -/
def unitLabel (i : Nat) : String := (sizes.get? i).getD "undefined"

/-- Rendering of `Number.parseFloat(v.toFixed(2))` for a non-negative value
given in hundredths: two decimal places with trailing zeros (and a trailing
dot) dropped, as `parseFloat` does. -/
def stripDec (n : Nat) : String :=
  let whole := n / 100
  let frac := n % 100
  if frac = 0 then toString whole
  else if frac % 10 = 0 then toString whole ++ "." ++ toString (frac / 10)
  else if frac < 10 then toString whole ++ ".0" ++ toString frac
  else toString whole ++ "." ++ toString frac

/-- `formatFileSize(bytes)`: `0` maps to `"0 Bytes"`; otherwise
`i = Math.floor(Math.log(bytes) / Math.log(1024))` (exact real logarithm,
i.e. `Nat.log 1024`), the value is `bytes / 1024^i` rounded to two decimal
places, and the label is `sizes[i]` — with no clamping of `i`. -/
def formatFileSize (bytes : Nat) : String :=
  if bytes = 0 then "0 Bytes"
  else
    let i := Nat.log 1024 bytes
    let p := 1024 ^ i
    stripDec ((200 * bytes + p) / (2 * p)) ++ " " ++ unitLabel i

/-- A user-visible operation on the component, as exposed by the rendered
controls and drag events. -/
inductive Op where
  | select : Option (List JSFile) → Op
  | dropBatch : Option (List JSFile) → Op
  | removeId : String → Op
  | clearAllOp : Op
  | dragOver : Op
  | dragLeave : Op

/-- One step of the component: dispatch an operation on the state (revoked
URLs are a side effect, not part of the state). -/
def step (gen : Oracle) (s : UploadState) : Op → UploadState
  | Op.select sel => handleFileSelect gen sel s
  | Op.dropBatch sel => handleDrop gen sel s
  | Op.removeId x => (removeFile x s).1
  | Op.clearAllOp => (clearAll s).1
  | Op.dragOver => handleDragOver s
  | Op.dragLeave => handleDragLeave s

/-- Run a sequence of operations from a state. -/
def run (gen : Oracle) (s : UploadState) : List Op → UploadState
  | [] => s
  | o :: os => run gen (step gen s o) os

/-- Sample image file. -/
def pngFile : JSFile := { name := "a.png", size := 2048, type := "image/png" }

/-- Sample non-image file. -/
def pdfFile : JSFile := { name := "b.pdf", size := 100, type := "application/pdf" }

/-- An oracle whose id generator always returns the same string — a possible
outcome of `Math.random().toString(36).substr(2, 9)`, which can repeat. -/
def genDup : Oracle := { ids := fun _ => "dup", urls := fun k => "blob:" ++ toString k }

/-- An oracle whose id generator never repeats (fresh ids). -/
def genInj : Oracle :=
  { ids := fun k => String.mk (List.replicate k 'x'), urls := fun _ => "blob:w" }

/-- A record owning a preview handle, and a one-record state, used as
concrete inputs. -/
def recW : FileWithId := { id := "a", file := pngFile, previewUrl := some "blob:0" }

/-- A concrete one-record state whose record owns a preview handle. -/
def stW : UploadState := { files := [recW], isDragOver := false, idCount := 1, urlCount := 1 }

/-- Two records sharing the id `"d"`, each owning a distinct preview handle. -/
def dupA : FileWithId := { id := "d", file := pngFile, previewUrl := some "u1" }

/-- Second record with the duplicated id. -/
def dupB : FileWithId := { id := "d", file := pngFile, previewUrl := some "u2" }

/-- A state violating the id-uniqueness invariant: two records with id `"d"`. -/
def dupState : UploadState :=
  { files := [dupA, dupB], isDragOver := false, idCount := 2, urlCount := 2 }

/-! ### Helper lemmas -/

/-- Evaluating `formatFileSize` once the unit index is pinned down by a pair
of power bounds. -/
lemma formatFileSize_eq_of_bounds (b m : Nat) (hb : b ≠ 0)
    (h1 : 1024 ^ m ≤ b) (h2 : b < 1024 ^ (m + 1)) :
    formatFileSize b =
      stripDec ((200 * b + 1024 ^ m) / (2 * 1024 ^ m)) ++ " " ++ unitLabel m := by
  rw [formatFileSize, if_neg hb, Nat.log_eq_of_pow_le_of_lt_pow h1 h2]

/-- The id count after building a batch advances by the batch length. -/
lemma buildRecords_idCount (gen : Oracle) :
    ∀ (fs : List JSFile) (k u : Nat), (buildRecords gen fs k u).2.1 = k + fs.length := by
  intro fs
  induction fs with
  | nil => intro k u; simp [buildRecords]
  | cons f fs ih =>
      intro k u
      simp only [buildRecords, ih, List.length_cons]
      omega

/-- The ids of a freshly built batch are the generator's outputs at the
consecutive call indices. -/
lemma buildRecords_ids (gen : Oracle) :
    ∀ (fs : List JSFile) (k u : Nat),
      ((buildRecords gen fs k u).1.map fun r => r.id) =
        (List.range' k fs.length).map gen.ids := by
  intro fs
  induction fs with
  | nil => intro k u; simp [buildRecords]
  | cons f fs ih =>
      intro k u
      simp [buildRecords, mkRecord, ih, List.range'_succ]

/-- The files of a freshly built batch are the batch, in order. -/
lemma buildRecords_files (gen : Oracle) :
    ∀ (fs : List JSFile) (k u : Nat),
      ((buildRecords gen fs k u).1.map fun r => r.file) = fs := by
  intro fs
  induction fs with
  | nil => intro k u; rfl
  | cons f fs ih => intro k u; simp [buildRecords, mkRecord, ih]

/-- Preview presence across a freshly built batch follows the MIME test. -/
lemma buildRecords_previews (gen : Oracle) :
    ∀ (fs : List JSFile) (k u : Nat),
      ((buildRecords gen fs k u).1.map fun r => r.previewUrl.isSome) =
        fs.map fun f => isImageType f := by
  intro fs
  induction fs with
  | nil => intro k u; rfl
  | cons f fs ih =>
      intro k u
      by_cases h : isImageType f <;>
        simp [buildRecords, mkRecord, ih, h]

/-- With pairwise-distinct ids, `find?` on a matching member returns exactly
that member. -/
lemma find?_of_nodup_ids (l : List FileWithId) (r : FileWithId) (x : String)
    (hnd : (l.map fun f => f.id).Nodup) (hmem : r ∈ l) (hid : r.id = x) :
    l.find? (fun f => f.id == x) = some r := by
  induction l with
  | nil => cases hmem
  | cons h t ih =>
      simp only [List.map_cons, List.nodup_cons] at hnd
      rcases List.mem_cons.mp hmem with rfl | hmem'
      · exact List.find?_cons_of_pos _ (by simp [hid])
      · have hx : ¬ h.id = x := by
          intro he
          exact hnd.1 (he ▸ hid ▸ List.mem_map_of_mem (fun f => f.id) hmem')
        rw [List.find?_cons_of_neg _ (by simp [hx])]
        exact ih hnd.2 hmem'

/-- Every record surviving the removal filter has an id different from the
removed one. -/
lemma all_filter_ne (l : List FileWithId) (x : String) :
    ((l.filter fun f => f.id != x).all fun f => f.id != x) = true := by
  rw [List.all_eq_true]
  intro f hf
  exact (List.mem_filter.mp hf).2

/-- Invariant tying a state to the oracle: the ids in the registry are
pairwise distinct and each comes from a generator call already made. -/
def IdsOk (gen : Oracle) (s : UploadState) : Prop :=
  ((s.files.map fun f => f.id).Nodup) ∧
    ∀ f ∈ s.files, ∃ j, j < s.idCount ∧ f.id = gen.ids j

/-- Selecting a batch preserves the id invariant when the generator never
repeats. -/
lemma idsOk_select (gen : Oracle) (hinj : Function.Injective gen.ids)
    (s : UploadState) (hs : IdsOk gen s) (sel : Option (List JSFile)) :
    IdsOk gen (handleFileSelect gen sel s) := by
  obtain ⟨hnd, hbound⟩ := hs
  cases sel with
  | none => exact ⟨hnd, hbound⟩
  | some fs =>
      have hfiles :
          (handleFileSelect gen (some fs) s).files =
            s.files ++ (buildRecords gen fs s.idCount s.urlCount).1 := rfl
      have hcount :
          (handleFileSelect gen (some fs) s).idCount = s.idCount + fs.length := by
        simpa [handleFileSelect] using buildRecords_idCount gen fs s.idCount s.urlCount
      constructor
      · rw [hfiles, List.map_append, List.nodup_append]
        refine ⟨hnd, ?_, ?_⟩
        · rw [buildRecords_ids]
          exact (List.nodup_range' _ _).map hinj
        · intro a ha
          rw [buildRecords_ids]
          intro hb
          obtain ⟨f, hf, rfl⟩ := List.mem_map.mp ha
          obtain ⟨j, hj, hji⟩ := hbound f hf
          obtain ⟨j2, hj2, hj2e⟩ := List.mem_map.mp hb
          have hjj : j = j2 := hinj (by rw [← hji, hj2e])
          have : s.idCount ≤ j2 := (List.mem_range'_1.mp hj2).1
          omega
      · intro f hf
        rw [hcount]
        rw [hfiles] at hf
        rcases List.mem_append.mp hf with hold | hnew
        · obtain ⟨j, hj, hji⟩ := hbound f hold
          exact ⟨j, by omega, hji⟩
        · have : f.id ∈ (buildRecords gen fs s.idCount s.urlCount).1.map
              fun r => r.id := List.mem_map_of_mem _ hnew
          rw [buildRecords_ids] at this
          obtain ⟨j2, hj2, hj2e⟩ := List.mem_map.mp this
          have hb := List.mem_range'_1.mp hj2
          exact ⟨j2, by omega, hj2e.symm⟩

/-- Removing a record preserves the id invariant. -/
lemma idsOk_remove (gen : Oracle) (s : UploadState) (hs : IdsOk gen s) (x : String) :
    IdsOk gen (removeFile x s).1 := by
  obtain ⟨hnd, hbound⟩ := hs
  constructor
  · exact (((List.filter_sublist s.files).map fun f => f.id).nodup hnd :)
  · intro f hf
    exact hbound f (List.mem_of_mem_filter hf)

/-- Every operation preserves the id invariant when the generator never
repeats. -/
lemma idsOk_step (gen : Oracle) (hinj : Function.Injective gen.ids)
    (s : UploadState) (hs : IdsOk gen s) (o : Op) : IdsOk gen (step gen s o) := by
  cases o with
  | select sel => exact idsOk_select gen hinj s hs sel
  | dropBatch sel =>
      exact idsOk_select gen hinj { s with isDragOver := false } ⟨hs.1, hs.2⟩ sel
  | removeId x => exact idsOk_remove gen s hs x
  | clearAllOp => exact ⟨List.nodup_nil, by intro f hf; cases hf⟩
  | dragOver => exact ⟨hs.1, hs.2⟩
  | dragLeave => exact ⟨hs.1, hs.2⟩

/-- Running any sequence of operations preserves the id invariant. -/
lemma idsOk_run (gen : Oracle) (hinj : Function.Injective gen.ids) :
    ∀ (ops : List Op) (s : UploadState), IdsOk gen s → IdsOk gen (run gen s ops) := by
  intro ops
  induction ops with
  | nil => intro s hs; exact hs
  | cons o os ih => intro s hs; exact ih _ (idsOk_step gen hinj s hs o)

/-- The fresh-id oracle `genInj` really is injective: distinct call indices
give strings of distinct lengths. -/
lemma genInj_injective : Function.Injective genInj.ids := by
  intro a b h
  have h2 := congrArg (fun s => s.data.length) h
  simpa [genInj] using h2

/-! ### Claim theorems -/

/-- C1 (code bug): the "Clear All" control always empties the Registry but
performs zero release calls — also on a state whose single record owns a
preview handle, where the spec demands exactly one release. -/
theorem clearAll_releases_nothing :
    (∀ s : UploadState, (clearAll s).1.files = [] ∧ (clearAll s).2 = []) ∧
      (stW.files.filter fun f => f.previewUrl.isSome).length = 1 ∧
      (clearAll stW).2 = [] :=
  ⟨fun _ => ⟨rfl, rfl⟩, by decide, by decide⟩

/-- C2 (code bug): the unit index of `formatFileSize` is not clamped: at
`1024 ^ 4` bytes the rendered string is `"1 undefined"`, which ends with none
of the four unit labels. -/
theorem formatFileSize_unclamped_undefined :
    formatFileSize (1024 ^ 4) = "1 undefined" ∧
      (sizes.all fun u => !(u.data.isSuffixOf (formatFileSize (1024 ^ 4)).data)) = true := by
  rw [formatFileSize_eq_of_bounds (1024 ^ 4) 4 (by norm_num) le_rfl (by norm_num)]
  exact ⟨by decide, by decide⟩

/-- C3 (counterexample): the id generator can repeat its output — with a
constant generator stream, selecting a two-file batch yields two records with
the same id, so uniqueness does not hold for all generator outcomes. -/
theorem generateId_ids_can_collide :
    ¬ (((run genDup initState [Op.select (some [pdfFile, pdfFile])]).files.map
        fun f => f.id).Nodup) := by decide

/-- C3 (amended): whenever the id generator never returns the same value
twice, every state reachable by any sequence of operations (selections,
drops, removals, clears, drag toggles) has pairwise-distinct record ids. -/
theorem run_ids_nodup (gen : Oracle) (hinj : Function.Injective gen.ids)
    (ops : List Op) :
    ((run gen initState ops).files.map fun f => f.id).Nodup :=
  (idsOk_run gen hinj ops initState ⟨List.nodup_nil, by intro f hf; cases hf⟩).1

/-- C3 witness: the amended theorem applied to the injective oracle and a
concrete operation sequence. -/
theorem run_ids_nodup_witness :
    ((run genInj initState
        [Op.select (some [pngFile, pdfFile]), Op.removeId "x"]).files.map
        fun f => f.id).Nodup :=
  run_ids_nodup genInj genInj_injective
    [Op.select (some [pngFile, pdfFile]), Op.removeId "x"]

/-- C4: the four sample evaluations of `formatFileSize`. -/
theorem formatFileSize_examples :
    formatFileSize 0 = "0 Bytes" ∧ formatFileSize 1024 = "1 KB" ∧
      formatFileSize 1536 = "1.5 KB" ∧ formatFileSize 1048576 = "1 MB" := by
  refine ⟨by decide, ?_, ?_, ?_⟩
  · rw [formatFileSize_eq_of_bounds 1024 1 (by norm_num) (by norm_num) (by norm_num)]
    decide
  · rw [formatFileSize_eq_of_bounds 1536 1 (by norm_num) (by norm_num) (by norm_num)]
    decide
  · rw [formatFileSize_eq_of_bounds 1048576 2 (by norm_num) (by norm_num) (by norm_num)]
    decide

/-- C5: a record carries a preview handle exactly when its file's MIME type
begins with `image/`; across a whole batch the preview pattern follows the
MIME test, and concretely a `image/png` file gets a preview while an
`application/pdf` file gets none. -/
theorem preview_iff_image :
    (∀ (gen : Oracle) (k u : Nat) (f : JSFile),
        (mkRecord gen k u f).previewUrl.isSome = isImageType f) ∧
    (∀ (gen : Oracle) (fs : List JSFile) (k u : Nat),
        ((buildRecords gen fs k u).1.map fun r => r.previewUrl.isSome) =
          fs.map fun f => isImageType f) ∧
    (mkRecord genDup 0 0 pngFile).previewUrl.isSome = true ∧
    (mkRecord genDup 0 0 pdfFile).previewUrl = none := by
  refine ⟨?_, buildRecords_previews, by decide, by decide⟩
  intro gen k u f
  by_cases h : isImageType f <;> simp [mkRecord, h]

/-- C6: selecting a batch appends its records to the end of the Registry in
batch order, leaving existing records in place; an empty batch is a no-op,
and `append [a, b]` then `append [c]` yields file order `[a, b, c]`. -/
theorem select_append_order :
    (∀ (gen : Oracle) (s : UploadState) (fs : List JSFile),
        (handleFileSelect gen (some fs) s).files =
          s.files ++ (buildRecords gen fs s.idCount s.urlCount).1) ∧
    (∀ (gen : Oracle) (s : UploadState) (fs : List JSFile),
        ((handleFileSelect gen (some fs) s).files.map fun r => r.file) =
          (s.files.map fun r => r.file) ++ fs) ∧
    (∀ (gen : Oracle) (s : UploadState), handleFileSelect gen (some []) s = s) ∧
    (∀ (gen : Oracle) (s : UploadState) (a b c : JSFile),
        ((handleFileSelect gen (some [c])
            (handleFileSelect gen (some [a, b]) s)).files.map fun r => r.file) =
          (s.files.map fun r => r.file) ++ [a, b, c]) := by
  have hmap : ∀ (gen : Oracle) (s : UploadState) (fs : List JSFile),
      ((handleFileSelect gen (some fs) s).files.map fun r => r.file) =
        (s.files.map fun r => r.file) ++ fs := by
    intro gen s fs
    show ((s.files ++ (buildRecords gen fs s.idCount s.urlCount).1).map
        fun r => r.file) = _
    rw [List.map_append, buildRecords_files]
  refine ⟨fun gen s fs => rfl, hmap, ?_, ?_⟩
  · intro gen s
    simp [handleFileSelect, buildRecords]
  · intro gen s a b c
    rw [hmap, hmap]
    simp

/-- C7: on a Registry with pairwise-distinct ids, removing a present record
that owns a preview handle releases exactly that handle (one release call)
and leaves no record with the removed id. -/
theorem removeFile_releases_once (s : UploadState) (x u : String) (r : FileWithId)
    (hnd : (s.files.map fun f => f.id).Nodup) (hmem : r ∈ s.files)
    (hid : r.id = x) (hpu : r.previewUrl = some u) :
    (removeFile x s).2 = [u] ∧
      (((removeFile x s).1.files.all fun f => f.id != x) = true) := by
  constructor
  · have hf := find?_of_nodup_ids s.files r x hnd hmem hid
    simp [removeFile, hf, hpu]
  · exact all_filter_ne s.files x

/-- C7 witness: removing the single record of `stW` releases its handle. -/
theorem removeFile_releases_once_witness :
    (removeFile "a" stW).2 = ["blob:0"] ∧
      (((removeFile "a" stW).1.files.all fun f => f.id != "a") = true) :=
  removeFile_releases_once stW "a" "blob:0" recW (by decide) (by decide)
    (by decide) (by decide)

/-- C9 (frame): removal keeps exactly the records whose id differs from the
removed one — each unchanged and in the original relative order (the result
is the filtered list, a sublist of the original) — and leaves the drag-over
flag and the generator counters untouched. -/
theorem removeFile_frame :
    ∀ (s : UploadState) (x : String),
      (removeFile x s).1.files = s.files.filter (fun f => f.id != x) ∧
      List.Sublist (removeFile x s).1.files s.files ∧
      (removeFile x s).1.isDragOver = s.isDragOver ∧
      (removeFile x s).1.idCount = s.idCount ∧
      (removeFile x s).1.urlCount = s.urlCount :=
  fun s _ => ⟨rfl, List.filter_sublist s.files, rfl, rfl, rfl⟩

/-- C10: even with duplicated ids, removal deletes every record with the
given id but performs at most one release call — the one for the first
matching record's handle; concretely, on `dupState` both records with id
`"d"` disappear yet only `"u1"` is released. -/
theorem removeFile_duplicate_ids :
    (∀ (s : UploadState) (x : String),
        (((removeFile x s).1.files.all fun f => f.id != x) = true)) ∧
    (∀ (s : UploadState) (x : String),
        (removeFile x s).2 =
          ((s.files.find? fun f => f.id == x).bind fun r => r.previewUrl).toList) ∧
    (∀ (s : UploadState) (x : String), (removeFile x s).2.length ≤ 1) ∧
    (removeFile "d" dupState).1.files = [] ∧
    (removeFile "d" dupState).2 = ["u1"] := by
  have hrel : ∀ (s : UploadState) (x : String),
      (removeFile x s).2 =
        ((s.files.find? fun f => f.id == x).bind fun r => r.previewUrl).toList := by
    intro s x
    cases hf : s.files.find? fun f => f.id == x with
    | none => simp [removeFile, hf]
    | some r =>
        cases hp : r.previewUrl with
        | none => simp [removeFile, hf, hp]
        | some u => simp [removeFile, hf, hp]
  refine ⟨fun s x => all_filter_ne s.files x, hrel, ?_, by decide, by decide⟩
  intro s x
  rw [hrel]
  cases (s.files.find? fun f => f.id == x).bind fun r => r.previewUrl with
  | none => simp
  | some u => simp
